import Mathlib

/-!
Verification of the chunk-level batch scheduling core in
`miloco_ai_engine/core/batch_scheduling/scheduler_task_info.h`.

The header defines the task lifecycle enum `TaskStatus`, the per-chunk task
record `SycChunkTask` with its ordering (`operator<`) and equality
(`operator==`), and the batch builder `BatchSchedulerInput` whose constructor
turns an ordered sequence of raw chunks into tasks.

Raw chunks (`mtmd_input_chunk`), the deep-copy function
(`mtmd_input_chunk_copy`) and the content hasher (`chunk_hashs` from
`utils/chunk-hash.h`) are external to the header; they are modelled here as
parameters: an opaque chunk type `Chunk`, a copy function `copy : Chunk → Chunk`
(value-level content of the copied chunk), and a per-chunk hash function
`hashf : Chunk → String`.
-/

/-- The task lifecycle enum, with the source's underlying values 0..4. -/
inductive TaskStatus where
  | PENDING
  | WAIT
  | IN_PROGRESS
  | COMPLETED
  | FAILED
deriving DecidableEq, Repr

/-- The underlying integer value of each enumerator, as written in the source
(`PENDING = 0`, ..., `FAILED = 4`). -/
def TaskStatus.toVal : TaskStatus → Nat
  | .PENDING => 0
  | .WAIT => 1
  | .IN_PROGRESS => 2
  | .COMPLETED => 3
  | .FAILED => 4

/-- A state is terminal when it is `COMPLETED` or `FAILED`. -/
def TaskStatus.isTerminal : TaskStatus → Bool
  | .COMPLETED => true
  | .FAILED => true
  | _ => false

/-- The per-chunk task record `SycChunkTask`.  `input_chunk` holds the task's
own copy of the chunk payload, `embeddig` (sic) is the result slot
(`shared_ptr<vector<float>>`, empty = null), `chunk_hash` the content
fingerprint, `cmpl_id` the owning request id (`size_t`), `priority` the signed
scheduling priority (`int32_t`), `is_last_chunk` the final-chunk marker and
`status` the atomic lifecycle state. -/
structure SycChunkTask (Chunk : Type _) (Emb : Type _) where
  input_chunk : Chunk
  embeddig : Option Emb
  chunk_hash : String
  cmpl_id : Nat
  priority : Int
  is_last_chunk : Bool
  status : TaskStatus
deriving DecidableEq

variable {Chunk : Type _} {Emb : Type _}

/-- The constructor
`SycChunkTask(chunk, cmpl_id, chunk_hash, priority)`: it sets the four listed
fields and leaves the member initializers for the rest (`embeddig` null,
`is_last_chunk = false`, `status = PENDING`). -/
def SycChunkTask.make (chunk : Chunk) (cmpl_id : Nat) (chunk_hash : String)
    (priority : Int) : SycChunkTask Chunk Emb :=
  { input_chunk := chunk
    embeddig := none
    chunk_hash := chunk_hash
    cmpl_id := cmpl_id
    priority := priority
    is_last_chunk := false
    status := TaskStatus.PENDING }

/-- `operator<`: compare by priority first; on a priority tie, by `cmpl_id`. -/
def SycChunkTask.lt (a b : SycChunkTask Chunk Emb) : Bool :=
  if a.priority ≠ b.priority then decide (a.priority < b.priority)
  else decide (a.cmpl_id < b.cmpl_id)

/-- `operator==`: `cmpl_id == other.cmpl_id && priority == other.priority`. -/
def SycChunkTask.eqTask (a b : SycChunkTask Chunk Emb) : Bool :=
  decide (a.cmpl_id = b.cmpl_id) && decide (a.priority = b.priority)

/-- Modelled from the spec: `chunk_hashs` (declared in `utils/chunk-hash.h`,
whose implementation is not under `src/`) computes one content fingerprint per
chunk, in input order — "given a chunk's content bytes, produce a fixed-size
fingerprint"; "pure, stateless, deterministic; called once per chunk at
ingestion time".  `hashf` is the per-chunk hash. -/
def chunk_hashs (hashf : Chunk → String) (cs : List Chunk) : List String :=
  cs.map hashf

/-- The batch produced by ingestion: an ordered sequence of tasks. -/
structure BatchSchedulerInput (Chunk : Type _) (Emb : Type _) where
  input_chunks : List (SycChunkTask Chunk Emb)

/-- The loop body of the `BatchSchedulerInput` constructor: for each chunk in
order, copy it, pair it with its fingerprint `hashs[i] = hashf chunk`, build a
`SycChunkTask`, and set `is_last_chunk = true` on the element pushed at
`i == chunks->size() - 1`. -/
def buildTasks (copy : Chunk → Chunk) (hashf : Chunk → String) (cmpl_id : Nat)
    (prio : Int) : List Chunk → List (SycChunkTask Chunk Emb)
  | [] => []
  | c :: rest =>
    let t : SycChunkTask Chunk Emb := SycChunkTask.make (copy c) cmpl_id (hashf c) prio
    if rest.isEmpty then [{ t with is_last_chunk := true }]
    else t :: buildTasks copy hashf cmpl_id prio rest

/-- The constructor `BatchSchedulerInput(chunks, cmpl_id, prio)`: a null
`chunks` pointer (`none`) returns at once with no tasks; otherwise each chunk
is copied, hashed, and wrapped in a task, the last one marked. -/
def BatchSchedulerInput.build (copy : Chunk → Chunk) (hashf : Chunk → String)
    (chunks : Option (List Chunk)) (cmpl_id : Nat) (prio : Int) :
    BatchSchedulerInput Chunk Emb :=
  match chunks with
  | none => { input_chunks := [] }
  | some cs => { input_chunks := buildTasks copy hashf cmpl_id prio cs }

/-- The constructor with the declared default priority `prio = 0`. -/
def BatchSchedulerInput.buildDefault (copy : Chunk → Chunk)
    (hashf : Chunk → String) (chunks : Option (List Chunk)) (cmpl_id : Nat) :
    BatchSchedulerInput Chunk Emb :=
  BatchSchedulerInput.build copy hashf chunks cmpl_id 0

/-- Modelled from the spec: the status-transition writer is not under `src/`
(the header holds only the `std::atomic<TaskStatus>` field and the enum).
Per §4.1 "Transitions are monotonic and idempotent: a terminal state is never
overwritten" and §9 "writers use atomic exchange guarded by 'only transition
forward' logic": an attempted transition to `next` is applied only when the
current state is not terminal and `next` is strictly forward in enum order;
otherwise the attempt is a no-op. -/
def transitionStatus (cur next : TaskStatus) : TaskStatus :=
  if cur.isTerminal then cur
  else if cur.toVal < next.toVal then next
  else cur

/-! ## Helper lemmas about the builder loop -/

theorem buildTasks_nil (copy : Chunk → Chunk) (hashf : Chunk → String)
    (cmpl_id : Nat) (prio : Int) :
    (buildTasks copy hashf cmpl_id prio [] : List (SycChunkTask Chunk Emb)) = [] := rfl

theorem buildTasks_singleton (copy : Chunk → Chunk) (hashf : Chunk → String)
    (cmpl_id : Nat) (prio : Int) (c : Chunk) :
    (buildTasks copy hashf cmpl_id prio [c] : List (SycChunkTask Chunk Emb)) =
      [{ SycChunkTask.make (copy c) cmpl_id (hashf c) prio with is_last_chunk := true }] := rfl

theorem buildTasks_cons_cons (copy : Chunk → Chunk) (hashf : Chunk → String)
    (cmpl_id : Nat) (prio : Int) (c c2 : Chunk) (rest : List Chunk) :
    (buildTasks copy hashf cmpl_id prio (c :: c2 :: rest) : List (SycChunkTask Chunk Emb)) =
      SycChunkTask.make (copy c) cmpl_id (hashf c) prio ::
        buildTasks copy hashf cmpl_id prio (c2 :: rest) := rfl

theorem length_buildTasks (copy : Chunk → Chunk) (hashf : Chunk → String)
    (cmpl_id : Nat) (prio : Int) (cs : List Chunk) :
    (buildTasks copy hashf cmpl_id prio cs : List (SycChunkTask Chunk Emb)).length = cs.length := by
  induction cs with
  | nil => rfl
  | cons c rest ih =>
    cases rest with
    | nil => rfl
    | cons c2 rest2 =>
      rw [buildTasks_cons_cons]
      simpa using ih

theorem buildTasks_mem_fields (copy : Chunk → Chunk) (hashf : Chunk → String)
    (cmpl_id : Nat) (prio : Int) (cs : List Chunk) (t : SycChunkTask Chunk Emb)
    (h : t ∈ buildTasks copy hashf cmpl_id prio cs) :
    t.status = TaskStatus.PENDING ∧ t.embeddig = none ∧
      t.cmpl_id = cmpl_id ∧ t.priority = prio := by
  induction cs with
  | nil => simp [buildTasks_nil] at h
  | cons c0 rest ih =>
    cases rest with
    | nil =>
      rw [buildTasks_singleton] at h
      simp only [List.mem_singleton] at h
      subst h
      exact ⟨rfl, rfl, rfl, rfl⟩
    | cons c1 rest2 =>
      rw [buildTasks_cons_cons] at h
      rcases List.mem_cons.mp h with h0 | h1
      · subst h0
        exact ⟨rfl, rfl, rfl, rfl⟩
      · exact ih h1

theorem buildTasks_getElem (copy : Chunk → Chunk) (hashf : Chunk → String)
    (cmpl_id : Nat) (prio : Int) (cs : List Chunk) :
    ∀ i, i < cs.length →
      ∃ (t : SycChunkTask Chunk Emb) (c : Chunk),
        (buildTasks copy hashf cmpl_id prio cs)[i]? = some t ∧
        cs[i]? = some c ∧
        t.input_chunk = copy c ∧ t.chunk_hash = hashf c ∧
        t.cmpl_id = cmpl_id ∧ t.priority = prio := by
  induction cs with
  | nil => intro i h; simp at h
  | cons c0 rest ih =>
    intro i h
    cases rest with
    | nil =>
      have hi : i = 0 := by simpa using h
      subst hi
      exact ⟨{ SycChunkTask.make (copy c0) cmpl_id (hashf c0) prio with is_last_chunk := true },
        c0, by rw [buildTasks_singleton]; simp, rfl, rfl, rfl, rfl, rfl⟩
    | cons c1 rest2 =>
      cases i with
      | zero =>
        exact ⟨SycChunkTask.make (copy c0) cmpl_id (hashf c0) prio,
          c0, by rw [buildTasks_cons_cons]; simp, rfl, rfl, rfl, rfl, rfl⟩
      | succ j =>
        have hj : j < (c1 :: rest2).length := by simpa using h
        obtain ⟨t, c, h1, h2, h3, h4, h5, h6⟩ := ih j hj
        refine ⟨t, c, ?_, ?_, h3, h4, h5, h6⟩
        · rw [buildTasks_cons_cons]
          simpa using h1
        · simpa using h2

theorem lt_spec (a b : SycChunkTask Chunk Emb) :
    SycChunkTask.lt a b = true ↔
      (a.priority < b.priority ∨
        (a.priority = b.priority ∧ a.cmpl_id < b.cmpl_id)) := by
  by_cases h : a.priority = b.priority <;> simp [SycChunkTask.lt, h]

theorem eq_spec (a b : SycChunkTask Chunk Emb) :
    SycChunkTask.eqTask a b = true ↔
      (a.cmpl_id = b.cmpl_id ∧ a.priority = b.priority) := by
  simp [SycChunkTask.eqTask]

/-! ## Claim theorems -/

/-- C1: for any two chunk tasks `a` and `b`, the scheduling comparison
`operator<` holds exactly when the pair (priority, cmpl_id) of `a` is
lexicographically smaller than that of `b`: priority ascending first, request
id (cmpl_id) ascending as tie-break.  Hence the minimal task under this order
is the one with the lowest (priority, requestId) pair. -/
theorem C1_lt_is_lex_priority_then_cmpl_id (a b : SycChunkTask Chunk Emb) :
    SycChunkTask.lt a b = true ↔
      (a.priority < b.priority ∨
        (a.priority = b.priority ∧ a.cmpl_id < b.cmpl_id)) :=
  lt_spec a b

/-- C3: an empty (zero-chunk) input sequence yields an empty batch — the
constructor produces no tasks and is total (signals no error). -/
theorem C3_empty_sequence_empty_batch (copy : Chunk → Chunk)
    (hashf : Chunk → String) (cmpl_id : Nat) (prio : Int) :
    (BatchSchedulerInput.build copy hashf (some []) cmpl_id prio :
        BatchSchedulerInput Chunk Emb).input_chunks = [] := rfl

/-- C4: the status-transition writer (modelled from the spec, see
`transitionStatus`) is monotonic along the enum order
PENDING → WAIT → IN_PROGRESS → COMPLETED/FAILED: the resulting state is never
earlier than the current one, is always either the current or the requested
state, and once the current state is terminal every further attempt is a
no-op — the terminal value is never overwritten. -/
theorem C4_status_monotonic_terminal_absorbing (cur next : TaskStatus) :
    cur.toVal ≤ (transitionStatus cur next).toVal ∧
    (transitionStatus cur next = cur ∨ transitionStatus cur next = next) ∧
    (cur.isTerminal = true → transitionStatus cur next = cur) := by
  cases cur <;> cases next <;> decide

theorem C4_witness :
    TaskStatus.isTerminal TaskStatus.COMPLETED = true ∧
    transitionStatus TaskStatus.COMPLETED TaskStatus.FAILED = TaskStatus.COMPLETED :=
  ⟨by decide,
    (C4_status_monotonic_terminal_absorbing TaskStatus.COMPLETED TaskStatus.FAILED).2.2
      (by decide)⟩

/-- C7: `operator==` on chunk tasks holds exactly when both `cmpl_id`
(requestId) and `priority` agree; since the right-hand side mentions no other
field, the fingerprint, payload, last-chunk flag and status play no role. -/
theorem C7_eq_is_cmpl_id_and_priority (a b : SycChunkTask Chunk Emb) :
    SycChunkTask.eqTask a b = true ↔
      (a.cmpl_id = b.cmpl_id ∧ a.priority = b.priority) := by
  simp [SycChunkTask.eqTask]

/-- C8: there are two tasks with the same request id and priority but
different content fingerprints that the ordering operators cannot tell apart:
they compare equal under `operator==` and neither is `operator<` the other,
so no tertiary key distinguishes same-priority, same-request chunks. -/
theorem C8_no_tertiary_key : ∃ a b : SycChunkTask Unit Unit,
    a.chunk_hash ≠ b.chunk_hash ∧
    SycChunkTask.eqTask a b = true ∧
    SycChunkTask.lt a b = false ∧
    SycChunkTask.lt b a = false := by
  refine ⟨⟨(), none, "h1", 5, 3, false, TaskStatus.PENDING⟩,
    ⟨(), none, "h2", 5, 3, true, TaskStatus.PENDING⟩, ?_, ?_, ?_, ?_⟩ <;> decide

/-- C9: a null chunk-sequence pointer (`none`, as opposed to an empty
sequence) makes the constructor return immediately with an empty batch; the
result does not depend on the hasher or the copy function (they are never
invoked) and no error is raised. -/
theorem C9_null_pointer_empty_batch (copy copy2 : Chunk → Chunk)
    (hashf hashf2 : Chunk → String) (cmpl_id : Nat) (prio : Int) :
    (BatchSchedulerInput.build copy hashf none cmpl_id prio :
        BatchSchedulerInput Chunk Emb).input_chunks = [] ∧
    (BatchSchedulerInput.build copy hashf none cmpl_id prio :
        BatchSchedulerInput Chunk Emb) =
      BatchSchedulerInput.build copy2 hashf2 none cmpl_id prio :=
  ⟨rfl, rfl⟩

theorem build_some (copy : Chunk → Chunk) (hashf : Chunk → String)
    (cmpl_id : Nat) (prio : Int) (cs : List Chunk) :
    (BatchSchedulerInput.build copy hashf (some cs) cmpl_id prio :
        BatchSchedulerInput Chunk Emb).input_chunks =
      buildTasks copy hashf cmpl_id prio cs := rfl

/-- C2: for every non-empty input sequence (written `cs ++ [c]`), the
constructed batch marks exactly one task `is_last_chunk = true`, namely the
one at the last position; every other task carries `false`. -/
theorem C2_exactly_one_last_chunk (copy : Chunk → Chunk) (hashf : Chunk → String)
    (cmpl_id : Nat) (prio : Int) (cs : List Chunk) (c : Chunk) :
    (BatchSchedulerInput.build copy hashf (some (cs ++ [c])) cmpl_id prio :
        BatchSchedulerInput Chunk Emb).input_chunks.map (fun t => t.is_last_chunk) =
      List.replicate cs.length false ++ [true] := by
  rw [build_some]
  induction cs with
  | nil => simp [buildTasks_singleton, SycChunkTask.make]
  | cons c0 cs ih =>
    cases hcs : cs ++ [c] with
    | nil => exact absurd hcs (by simp)
    | cons d ds =>
      rw [List.cons_append, hcs, buildTasks_cons_cons, ← hcs]
      simp only [List.map_cons, List.length_cons, List.replicate_succ, List.cons_append, ih]
      rfl

/-- C5: for any chunk sequence of length n, request id and priority, the batch
holds exactly n tasks in input order: task i owns the copy of the i-th raw
chunk, its fingerprint is the hash of the i-th chunk, and it carries the given
request id and priority; omitting the priority uses the declared default 0. -/
theorem C5_builder_per_chunk_fields (copy : Chunk → Chunk) (hashf : Chunk → String)
    (cmpl_id : Nat) (prio : Int) (cs : List Chunk) :
    (BatchSchedulerInput.buildDefault copy hashf (some cs) cmpl_id :
        BatchSchedulerInput Chunk Emb) =
      BatchSchedulerInput.build copy hashf (some cs) cmpl_id 0 ∧
    (BatchSchedulerInput.build copy hashf (some cs) cmpl_id prio :
        BatchSchedulerInput Chunk Emb).input_chunks.length = cs.length ∧
    ∀ i, i < cs.length →
      ∃ (t : SycChunkTask Chunk Emb) (c : Chunk),
        (BatchSchedulerInput.build copy hashf (some cs) cmpl_id prio :
            BatchSchedulerInput Chunk Emb).input_chunks[i]? = some t ∧
        cs[i]? = some c ∧
        t.input_chunk = copy c ∧ t.chunk_hash = hashf c ∧
        t.cmpl_id = cmpl_id ∧ t.priority = prio := by
  refine ⟨rfl, ?_, ?_⟩
  · rw [build_some]
    exact length_buildTasks copy hashf cmpl_id prio cs
  · intro i hi
    rw [build_some]
    exact buildTasks_getElem copy hashf cmpl_id prio cs i hi

theorem C5_witness :
    0 < ([10, 20] : List Nat).length ∧
    (∃ (t : SycChunkTask Nat Unit) (c : Nat),
      (BatchSchedulerInput.build Nat.succ (fun _x => "h") (some [10, 20]) 7 3 :
          BatchSchedulerInput Nat Unit).input_chunks[0]? = some t ∧
      ([10, 20] : List Nat)[0]? = some c ∧
      t.input_chunk = Nat.succ c ∧ t.chunk_hash = "h" ∧
      t.cmpl_id = 7 ∧ t.priority = 3) :=
  ⟨by decide,
    (C5_builder_per_chunk_fields Nat.succ (fun _x => "h") 7 3 [10, 20]).2.2 0 (by decide)⟩

/-- C6: every task produced by the constructor starts in `PENDING` with an
empty (null) embedding slot; no construction step sets a later state or fills
the result slot. -/
theorem C6_initial_pending_empty_slot (copy : Chunk → Chunk)
    (hashf : Chunk → String) (chunks : Option (List Chunk)) (cmpl_id : Nat)
    (prio : Int) (t : SycChunkTask Chunk Emb)
    (h : t ∈ (BatchSchedulerInput.build copy hashf chunks cmpl_id prio :
        BatchSchedulerInput Chunk Emb).input_chunks) :
    t.status = TaskStatus.PENDING ∧ t.embeddig = none := by
  cases chunks with
  | none => simp [BatchSchedulerInput.build] at h
  | some cs =>
    rw [build_some] at h
    exact ⟨(buildTasks_mem_fields copy hashf cmpl_id prio cs t h).1,
      (buildTasks_mem_fields copy hashf cmpl_id prio cs t h).2.1⟩

theorem C6_witness :
    ({ input_chunk := 5, embeddig := none, chunk_hash := "h", cmpl_id := 7,
       priority := 2, is_last_chunk := true, status := TaskStatus.PENDING } :
        SycChunkTask Nat Unit) ∈
      (BatchSchedulerInput.build id (fun _x => "h") (some [5]) 7 2 :
        BatchSchedulerInput Nat Unit).input_chunks ∧
    (({ input_chunk := 5, embeddig := none, chunk_hash := "h", cmpl_id := 7,
        priority := 2, is_last_chunk := true, status := TaskStatus.PENDING } :
          SycChunkTask Nat Unit).status = TaskStatus.PENDING ∧
      ({ input_chunk := 5, embeddig := none, chunk_hash := "h", cmpl_id := 7,
         priority := 2, is_last_chunk := true, status := TaskStatus.PENDING } :
           SycChunkTask Nat Unit).embeddig = none) :=
  ⟨by decide,
    C6_initial_pending_empty_slot id (fun _x => "h") (some [5]) 7 2 _ (by decide)⟩

/-- C10: the task equality is consistent with the ordering: `a == b` holds iff
neither `a < b` nor `b < a`; moreover `<` is irreflexive, transitive, and
total up to `==`, so for any two tasks exactly one of `a < b`, `b < a`,
`a == b` holds. -/
theorem C10_lt_strict_total_order_up_to_eq (a b c : SycChunkTask Chunk Emb) :
    (SycChunkTask.eqTask a b = true ↔
      (SycChunkTask.lt a b = false ∧ SycChunkTask.lt b a = false)) ∧
    SycChunkTask.lt a a = false ∧
    (SycChunkTask.lt a b = true → SycChunkTask.lt b c = true →
      SycChunkTask.lt a c = true) ∧
    (SycChunkTask.lt a b = true ∨ SycChunkTask.lt b a = true ∨
      SycChunkTask.eqTask a b = true) ∧
    (SycChunkTask.lt a b = true →
      SycChunkTask.lt b a = false ∧ SycChunkTask.eqTask a b = false) := by
  have hab := lt_spec a b
  have hba := lt_spec b a
  have hbc := lt_spec b c
  have hac := lt_spec a c
  have haa := lt_spec a a
  have heq := eq_spec a b
  constructor
  · rw [heq, Bool.eq_false_iff, Bool.eq_false_iff, Ne, Ne, hab, hba]
    omega
  constructor
  · rw [Bool.eq_false_iff, Ne, haa]
    omega
  constructor
  · rw [hab, hbc, hac]
    omega
  constructor
  · rw [hab, hba, heq]
    omega
  · rw [hab, Bool.eq_false_iff, Ne, hba, Bool.eq_false_iff, Ne, heq]
    omega

theorem C10_witness :
    SycChunkTask.lt (⟨(), none, "x", 1, 0, false, TaskStatus.PENDING⟩ :
        SycChunkTask Unit Unit)
      ⟨(), none, "y", 2, 0, false, TaskStatus.PENDING⟩ = true ∧
    SycChunkTask.lt (⟨(), none, "y", 2, 0, false, TaskStatus.PENDING⟩ :
        SycChunkTask Unit Unit)
      ⟨(), none, "z", 3, 1, false, TaskStatus.PENDING⟩ = true ∧
    SycChunkTask.lt (⟨(), none, "x", 1, 0, false, TaskStatus.PENDING⟩ :
        SycChunkTask Unit Unit)
      ⟨(), none, "z", 3, 1, false, TaskStatus.PENDING⟩ = true :=
  ⟨by decide, by decide,
    (C10_lt_strict_total_order_up_to_eq
        ⟨(), none, "x", 1, 0, false, TaskStatus.PENDING⟩
        ⟨(), none, "y", 2, 0, false, TaskStatus.PENDING⟩
        ⟨(), none, "z", 3, 1, false, TaskStatus.PENDING⟩).2.2.1
      (by decide) (by decide)⟩
